import Mathlib

/-!
Verification development for the RevitResolutionTools parsing pipeline
(`src/revit_warnings_manager/parsers.py`).

The Python module is embedded shallowly: each regular-expression search is
translated into an executable maximal-munch scanner with Python `re`
leftmost-match semantics, the per-line classifier loops become explicit
state-passing folds, and the fallible file/encoding layer is modelled by a
`String → Option (List String)` reader (encoding name to decoded lines).
-/

/-! ## Basic character and string utilities (Python semantics) -/

/-- Python `str.strip` whitespace set (`\t \n \v \f \r` and space). -/
def pyIsSpace (c : Char) : Bool :=
  c = ' ' || c = '\t' || c = '\n' || c = '\r' || c = '\x0b' || c = '\x0c'

/-- Python `str.strip()` on both ends. -/
def pyStrip (s : String) : String :=
  String.mk (((s.toList.dropWhile pyIsSpace).reverse.dropWhile pyIsSpace).reverse)

/-- Python `str.lower()` (ASCII range; the journal inputs are ASCII). -/
def toLowerPy (s : String) : String :=
  String.mk (s.toList.map Char.toLower)

/-- `pre` is a prefix of `s` (list form). -/
def startsWithL : List Char → List Char → Bool
  | _, [] => true
  | [], _ :: _ => false
  | c :: cs, p :: ps => c = p && startsWithL cs ps

/-- `pat` occurs as a contiguous substring of `s` (list form), i.e. the
Python `pat in s` test. -/
def containsL (pat : List Char) : List Char → Bool
  | [] => pat.isEmpty
  | c :: cs => startsWithL (c :: cs) pat || containsL pat cs

/-- Python `pat in s` on strings. -/
def containsSub (s pat : String) : Bool :=
  containsL pat.toList s.toList

/-- Python `s.startswith(pre)` on strings. -/
def strStarts (s pre : String) : Bool :=
  startsWithL s.toList pre.toList

/-- `suf` is a suffix of `s` (list form). -/
def endsWithL (s suf : List Char) : Bool :=
  startsWithL s.reverse suf.reverse

/-- Python `\w` word-character class (ASCII range). -/
def isWordChar (c : Char) : Bool :=
  c.isAlphanum || c = '_'

/-- Numeric value of a decimal digit string (`int(...)` on a `\d+` capture). -/
def natOfDigits (ds : List Char) : Nat :=
  ds.foldl (fun n c => n * 10 + (c.toNat - 48)) 0

/-- Worker loop for `pySplitOn`: scan left to right, splitting at each
(non-overlapping, leftmost) occurrence of the separator.  Fuel-driven
because a separator match skips `sep.length ≥ 1` characters; the initial
fuel equals the string length, so fuel never runs out before the input. -/
def splitOnGo (sep : List Char) : Nat → List Char → List Char → List String
  | 0, cur, _ => [String.mk cur.reverse]
  | _ + 1, cur, [] => [String.mk cur.reverse]
  | fuel + 1, cur, c :: cs =>
    if startsWithL (c :: cs) sep then
      String.mk cur.reverse :: splitOnGo sep fuel [] ((c :: cs).drop sep.length)
    else
      splitOnGo sep fuel (c :: cur) cs

/-- Python `s.split(sep)` for a non-empty separator. -/
def pySplitOn (s sep : String) : List String :=
  if sep.toList.isEmpty then [s]
  else splitOnGo sep.toList s.toList.length [] s.toList

/-! ## Scanner primitives

Each Python `re.search` is embedded as a per-position attempt function run
by `firstMatch`, which tries every start position left to right — exactly
`re.search`'s leftmost-match rule.  The patterns used by the source never
need general backtracking (every greedy class is followed by a literal
outside the class), so maximal munch per position is exact. -/

/-- Run an at-position matcher at every start position, leftmost first. -/
def firstMatch {α : Type} (f : List Char → Option α) : List Char → Option α
  | [] => f []
  | c :: cs =>
    match f (c :: cs) with
    | some r => some r
    | none => firstMatch f cs

/-- Expect the literal prefix `pre`, returning the rest. -/
def expectStr (pre : List Char) (s : List Char) : Option (List Char) :=
  if startsWithL s pre then some (s.drop pre.length) else none

/-- Expect one literal character. -/
def expectChar (c : Char) : List Char → Option (List Char)
  | [] => none
  | x :: xs => if x = c then some xs else none

/-- `\d+`: one or more digits, maximal munch. -/
def digits1 (s : List Char) : Option (List Char × List Char) :=
  let ds := s.takeWhile Char.isDigit
  if ds.isEmpty then none else some (ds, s.drop ds.length)

/-- `\w+`: one or more word characters, maximal munch. -/
def wordChars1 (s : List Char) : Option (List Char × List Char) :=
  let ws := s.takeWhile isWordChar
  if ws.isEmpty then none else some (ws, s.drop ws.length)

/-- `[^"]+"`: a nonempty run of non-quote characters closed by a quote. -/
def quoted1 (s : List Char) : Option (List Char × List Char) :=
  let q := s.takeWhile (fun c => !(c = '"'))
  if q.isEmpty then none
  else
    match s.drop q.length with
    | '"' :: rest => some (q, rest)
    | _ => none

/-- `[^"]*"`: a possibly empty run of non-quote characters closed by a quote. -/
def quoted0 (s : List Char) : Option (List Char × List Char) :=
  let q := s.takeWhile (fun c => !(c = '"'))
  match s.drop q.length with
  | '"' :: rest => some (q, rest)
  | _ => none

/-! ## The individual regular expressions of `parsers.py` -/

/-- At-position matcher for `\d+-\w+-\d+ \d+:\d+:\d+\.\d+`
(timestamp tokens such as `27-Sep-2025 13:08:35.485`). -/
def tsAt (s : List Char) : Option (List Char) := do
  let (d1, s) ← digits1 s
  let s ← expectChar '-' s
  let (w1, s) ← wordChars1 s
  let s ← expectChar '-' s
  let (d2, s) ← digits1 s
  let s ← expectChar ' ' s
  let (hh, s) ← digits1 s
  let s ← expectChar ':' s
  let (mm, s) ← digits1 s
  let s ← expectChar ':' s
  let (ss, s) ← digits1 s
  let s ← expectChar '.' s
  let (ms, _) ← digits1 s
  pure (d1 ++ '-' :: w1 ++ '-' :: d2 ++ ' ' :: hh ++ ':' :: mm ++ ':' :: ss ++ '.' :: ms)

/-- `re.search(r"\d+-\w+-\d+ \d+:\d+:\d+\.\d+", line)`, returning the
matched token. -/
def extractTimestamp (line : String) : Option String :=
  (firstMatch tsAt line.toList).map String.mk

/-- At-position matcher for `Jrn\.Command\s+"([^"]+)"\s*,\s*"([^"]+)"`. -/
def commandAt (s : List Char) : Option (String × String) := do
  let s ← expectStr ("Jrn.Command".toList) s
  let ws := s.takeWhile pyIsSpace
  if ws.isEmpty then none
  else do
    let s := s.drop ws.length
    let s ← expectChar '"' s
    let (g1, s) ← quoted1 s
    let s := s.dropWhile pyIsSpace
    let s ← expectChar ',' s
    let s := s.dropWhile pyIsSpace
    let s ← expectChar '"' s
    let (g2, _) ← quoted1 s
    pure (String.mk g1, String.mk g2)

/-- `re.search(r'Jrn\.Command\s+"([^"]+)"\s*,\s*"([^"]+)"', line)`. -/
def extractCommandPair (line : String) : Option (String × String) :=
  firstMatch commandAt line.toList

/-- At-position matcher for `Path = "([^"]+\.rvt)"`: the quoted span must be
non-quote characters ending in `.rvt` with at least one character before it. -/
def rvtAt (s : List Char) : Option String := do
  let s ← expectStr ("Path = \"".toList) s
  let (q, _) ← quoted1 s
  if endsWithL q (".rvt".toList) && decide (4 < q.length) then some (String.mk q)
  else none

/-- `re.search(r'Path = "([^"]+\.rvt)"', line)`. -/
def extractRvtPath (line : String) : Option String :=
  firstMatch rvtAt line.toList

/-- At-position matcher for `Region = "([^"]+)"`. -/
def regionAt (s : List Char) : Option String := do
  let s ← expectStr ("Region = \"".toList) s
  let (q, _) ← quoted1 s
  pure (String.mk q)

/-- `re.search(r'Region = "([^"]+)"', line)`. -/
def extractRegion (line : String) : Option String :=
  firstMatch regionAt line.toList

/-- At-position matcher for `Central server = "([^"]*)"`. -/
def serverAt (s : List Char) : Option String := do
  let s ← expectStr ("Central server = \"".toList) s
  let (q, _) ← quoted0 s
  pure (String.mk q)

/-- `re.search(r'Central server = "([^"]*)"', line)`. -/
def extractServer (line : String) : Option String :=
  firstMatch serverAt line.toList

/-- At-position matcher for `Is server path = (\w+)`. -/
def serverFlagAt (s : List Char) : Option String := do
  let s ← expectStr ("Is server path = ".toList) s
  let (w, _) ← wordChars1 s
  pure (String.mk w)

/-- `re.search(r'Is server path = (\w+)', line)`. -/
def extractServerFlag (line : String) : Option String :=
  firstMatch serverFlagAt line.toList

/-- At-position matcher for `User's Name ([^,]+),`. -/
def usernameAt (s : List Char) : Option String := do
  let s ← expectStr ("User's Name ".toList) s
  let q := s.takeWhile (fun c => !(c = ','))
  if q.isEmpty then none
  else
    match s.drop q.length with
    | ',' :: _ => some (String.mk q)
    | _ => none

/-- `re.search(r"User's Name ([^,]+),", line)`. -/
def extractUsername (line : String) : Option String :=
  firstMatch usernameAt line.toList

/-- At-position matcher for `(\d+\.\d+)!!!` (BIG_GAP duration). -/
def gapAt (s : List Char) : Option String := do
  let (d1, s) ← digits1 s
  let s ← expectChar '.' s
  let (d2, s) ← digits1 s
  let _ ← expectStr ("!!!".toList) s
  pure (String.mk (d1 ++ '.' :: d2))

/-- `re.search(r'(\d+\.\d+)!!!', line)`. -/
def extractGap (line : String) : Option String :=
  firstMatch gapAt line.toList

/-! ## Percent decoding (`urllib.parse.unquote`)

Percent escapes are decoded to bytes and the byte stream is decoded as
UTF-8.  Python replaces undecodable byte runs with U+FFFD; this model
returns the input unchanged in that (claim-irrelevant) situation. -/

/-- Value of one hexadecimal digit. -/
def hexDigitVal (c : Char) : Option Nat :=
  if c.isDigit then some (c.toNat - 48)
  else if 'a' ≤ c && c ≤ 'f' then some (c.toNat - 87)
  else if 'A' ≤ c && c ≤ 'F' then some (c.toNat - 55)
  else none

/-- UTF-8 encoding of one scalar value, as byte values. -/
def utf8EncodeChar (c : Char) : List Nat :=
  let n := c.toNat
  if n < 128 then [n]
  else if n < 2048 then [192 + n / 64, 128 + n % 64]
  else if n < 65536 then [224 + n / 4096, 128 + n / 64 % 64, 128 + n % 64]
  else [240 + n / 262144, 128 + n / 4096 % 64, 128 + n / 64 % 64, 128 + n % 64]

/-- Byte stream of a percent-encoded string: `%XX` hex pairs become single
bytes, everything else contributes its UTF-8 bytes. -/
def percentBytes : List Char → List Nat
  | [] => []
  | '%' :: h1 :: h2 :: rest =>
    match hexDigitVal h1, hexDigitVal h2 with
    | some a, some b => (16 * a + b) :: percentBytes rest
    | _, _ => 37 :: percentBytes (h1 :: h2 :: rest)
  | '%' :: rest => 37 :: percentBytes rest
  | c :: rest => utf8EncodeChar c ++ percentBytes rest

/-- Is `b` a UTF-8 continuation byte? -/
def isContByte (b : Nat) : Bool :=
  128 ≤ b && b < 192

/-- Is `n` a valid Unicode scalar value? -/
def isScalar (n : Nat) : Bool :=
  n < 55296 || (57344 ≤ n && n < 1114112)

/-- Strict UTF-8 decoder over byte values. -/
def utf8Decode : List Nat → Option (List Char)
  | [] => some []
  | b :: rest =>
    if b < 128 then (utf8Decode rest).map (Char.ofNat b :: ·)
    else if b < 192 then none
    else if b < 224 then
      match rest with
      | b2 :: rest2 =>
        let n := (b - 192) * 64 + (b2 - 128)
        if isContByte b2 && decide (128 ≤ n) then (utf8Decode rest2).map (Char.ofNat n :: ·)
        else none
      | _ => none
    else if b < 240 then
      match rest with
      | b2 :: b3 :: rest3 =>
        let n := (b - 224) * 4096 + (b2 - 128) * 64 + (b3 - 128)
        if isContByte b2 && isContByte b3 && decide (2048 ≤ n) && isScalar n then
          (utf8Decode rest3).map (Char.ofNat n :: ·)
        else none
      | _ => none
    else if b < 248 then
      match rest with
      | b2 :: b3 :: b4 :: rest4 =>
        let n := (b - 240) * 262144 + (b2 - 128) * 4096 + (b3 - 128) * 64 + (b4 - 128)
        if isContByte b2 && isContByte b3 && isContByte b4
            && decide (65536 ≤ n) && decide (n < 1114112) then
          (utf8Decode rest4).map (Char.ofNat n :: ·)
        else none
      | _ => none
    else none

/-- Model of `urllib.parse.unquote`. -/
def unquote (s : String) : String :=
  match utf8Decode (percentBytes s.toList) with
  | some cs => String.mk cs
  | none => s

/-! ## Flat-mode journal parsing (`JournalParser.parse_journal`)

The per-line loop body is split into the source's successive blocks:
prefix category, content overrides, model extraction, username back-fill,
entry construction, command reset.  State carried between lines matches the
Python local variables. -/

/-- One entry of the `models_info` list: a Python dict with optional keys. -/
structure ModelInfo where
  timestamp : String := ""
  path : Option String := none
  region : Option String := none
  server : Option String := none
  is_server_path : Option String := none
  username : Option String := none
deriving DecidableEq

/-- One element of the flat parser's result list. -/
structure JEntry where
  category : String
  content : String
  timestamp : String
  command : String
  model_info : Option ModelInfo := none
deriving DecidableEq

/-- The loop state of `parse_journal` (its per-encoding local variables). -/
structure JState where
  last_timestamp : String := ""
  models_info : List ModelInfo := []
  current_model_info : Option ModelInfo := none
  current_command : String := ""
deriving DecidableEq

/-- The initial loop state (empty string / empty list / empty dict). -/
def initState : JState := {}

/-- Primary category from the line's prefix (`'C`, `'H`, `'E`,
`Jrn.Command`, `Jrn.`, `'`, otherwise `Unknown`). -/
def primaryCategory (line : String) : String :=
  if strStarts line "'C" then "Control"
  else if strStarts line "'H" then "Header"
  else if strStarts line "'E" then "Event"
  else if strStarts line "Jrn.Command" then "Command"
  else if strStarts line "Jrn." then "Journal"
  else if strStarts line "'" then "Comment"
  else "Unknown"

/-- Command tracking: on a `Jrn.Command`-prefixed line whose two quoted
arguments parse, the pending command becomes `"X: Y"`. -/
def updateCommand (cur : String) (line : String) : String :=
  if strStarts line "Jrn.Command" then
    match extractCommandPair line with
    | some (a, b) => a ++ ": " ++ b
    | none => cur
  else cur

/-- Content-based category overrides, in source order; the `BIG_GAP` branch
also rewrites the line when a gap duration is extractable.  Returns the
(category, possibly rewritten line) pair. -/
def contentOverride (cat : String) (line : String) : String × String :=
  if containsSub line "BIG_GAP" || containsSub line "!!!BIG_GAP" then
    ("BIG GAP",
      match extractGap line with
      | some g => "BIG GAP: " ++ g ++ " seconds - " ++ line
      | none => line)
  else if containsSub line "Unrecoverable error" then ("Error", line)
  else if containsSub (toLowerPy line) "exception" then ("Error", line)
  else if containsSub line "API_ERROR" then ("Error", line)
  else if containsSub line "Error posted" then ("Error", line)
  else if containsSub line "RAM Statistics" || containsSub line "VM Statistics" then
    ("Performance", line)
  else if containsSub line "Delta VM" || containsSub line "Delta RAM" then
    ("Performance", line)
  else (cat, line)

/-- Model-extraction block of the flat parser: on a `ModelPath Created`
line (with `Path = ` and `.rvt` present), rebuild `current_model_info`
field by field; a new ModelInfo is recorded and the category forced to
`Model` only when the path capture succeeded.  Returns
(category, current model info, models list). -/
def modelExtract (st : JState) (cat : String) (line : String) (timestamp : String) :
    String × Option ModelInfo × List ModelInfo :=
  if containsSub line "ModelPath Created" && containsSub line "Path = "
      && containsSub line ".rvt" then
    let mi0 : ModelInfo := { timestamp := timestamp }
    let mi1 := match extractRvtPath line with
      | some p => { mi0 with path := some (unquote p) }
      | none => mi0
    let mi2 := match extractRegion line with
      | some r => { mi1 with region := some r }
      | none => mi1
    let mi3 := match extractServer line with
      | some sv => { mi2 with server := some sv }
      | none => mi2
    let mi4 := match extractServerFlag line with
      | some w =>
        { mi3 with is_server_path := some (if toLowerPy w = "true" then "True" else "False") }
      | none => mi3
    if mi4.path.isSome then ("Model", some mi4, st.models_info ++ [mi4])
    else (cat, some mi4, st.models_info)
  else (cat, st.current_model_info, st.models_info)

/-- Username back-fill: a `User's Name X,` line writes the extracted
username into every recorded ModelInfo that does not have one yet. -/
def usernameBackfill (models : List ModelInfo) (line : String) : List ModelInfo :=
  if containsSub line "User's Name " then
    match extractUsername line with
    | some u =>
      models.map (fun m => if m.username = none then { m with username := some u } else m)
    | none => models
  else models

/-- One iteration of the flat parser's line loop. -/
def classifyStep (st : JState) (rawLine : String) : JState × JEntry :=
  let line := pyStrip rawLine
  let timestamp :=
    match extractTimestamp line with
    | some t => t
    | none => st.last_timestamp
  let cmd0 := updateCommand st.current_command line
  let cat0 := primaryCategory line
  let co := contentOverride cat0 line
  let cat1 := co.1
  let line1 := co.2
  let me := modelExtract st cat1 line1 timestamp
  let cat2 := me.1
  let cmi2 := me.2.1
  let models2 := me.2.2
  let models3 := usernameBackfill models2 line1
  ({ last_timestamp := timestamp, models_info := models3,
     current_model_info := cmi2,
     current_command := if cat2 = "Command" then "" else cmd0 },
   { category := cat2, content := line1, timestamp := timestamp,
     command := if cat2 = "Command" then cmd0 else "",
     model_info := if cat2 = "Model" then cmi2 else none })

/-- The flat parser's line loop, producing the entry list. -/
def parseLinesGo (st : JState) : List String → List JEntry
  | [] => []
  | l :: ls => (classifyStep st l).2 :: parseLinesGo (classifyStep st l).1 ls

/-- Per-encoding body of `parse_journal` on successfully decoded lines. -/
def parseJournalLines (lines : List String) : List JEntry :=
  parseLinesGo initState lines

/-- Final loop state after the flat parser has processed all lines. -/
def parseFinalState : JState → List String → JState
  | st, [] => st
  | st, l :: ls => parseFinalState (classifyStep st l).1 ls

/-- The `models_info` list accumulated by a flat-mode parse. -/
def journalModels (lines : List String) : List ModelInfo :=
  (parseFinalState initState lines).models_info

/-- The candidate encodings tried by both journal parsers, in order. -/
def journalEncodings : List String := ["utf-8", "latin-1", "cp1252", "iso-8859-1"]

/-- Try each encoding in order against the reader; first successful decode
wins (the Python loop restarts its accumulators per encoding, so only the
successful attempt's results survive). -/
def tryEncodings (readFile : String → Option (List String)) :
    List String → Option (List String)
  | [] => none
  | e :: es =>
    match readFile e with
    | some ls => some ls
    | none => tryEncodings readFile es

/-- `JournalParser.parse_journal`: the reader maps an encoding name to the
decoded line list (`none` = decode failure).  Total failure returns `[]`
after reporting the error. -/
def parse_journal (readFile : String → Option (List String)) : List JEntry :=
  match tryEncodings readFile journalEncodings with
  | some ls => parseJournalLines ls
  | none => []

/-! ## Model-attributed journal parsing (`JournalParser.parse_journal_with_models`) -/

/-- Header metadata accumulated from `Build:` / `Branch:` / `Release:` /
`Username` lines (a Python dict with these possible keys). -/
structure HeaderInfo where
  build : Option String := none
  branch : Option String := none
  release : Option String := none
  username : Option String := none
deriving DecidableEq

/-- One categorized line of the model-attributed parse. -/
structure MEntry where
  timestamp : Option String
  category : String
  content : String
  model : String
deriving DecidableEq

/-- The aggregate result of `parse_journal_with_models`. -/
structure JournalDoc where
  header : HeaderInfo
  models : List String
  lines : List MEntry
deriving DecidableEq

/-- The loop state of `parse_journal_with_models`. -/
structure MState where
  models : List String := []
  handles : List (String × String) := []
  header : HeaderInfo := {}
  current_model : String := "All models"
deriving DecidableEq

/-- At-position matcher for `\(this=(0x[0-9A-Fa-f]+)\)`. -/
def handleAt (s : List Char) : Option String := do
  let s ← expectStr ("(this=0x".toList) s
  let hx := s.takeWhile (fun c =>
    c.isDigit || ('a' ≤ c && c ≤ 'f') || ('A' ≤ c && c ≤ 'F'))
  if hx.isEmpty then none
  else
    match s.drop hx.length with
    | ')' :: _ => some (String.mk ('0' :: 'x' :: hx))
    | _ => none

/-- `re.search(r'\(this=(0x[0-9A-Fa-f]+)\)', line)`. -/
def extractHandle (line : String) : Option String :=
  firstMatch handleAt line.toList

/-- At-position matcher for `Username\s*,\s*"([^"]+)"`. -/
def headerUserAt (s : List Char) : Option String := do
  let s ← expectStr ("Username".toList) s
  let s := s.dropWhile pyIsSpace
  let s ← expectChar ',' s
  let s := s.dropWhile pyIsSpace
  let s ← expectChar '"' s
  let (q, _) ← quoted1 s
  pure (String.mk q)

/-- `re.search(r'Username\s*,\s*"([^"]+)"', line)`. -/
def extractHeaderUsername (line : String) : Option String :=
  firstMatch headerUserAt line.toList

/-- Python `line.split(sep)[1]` (text between the first and second
occurrence of `sep`; total by defaulting to `""`, unreachable when `sep`
occurs in `line`). -/
def splitIndex1 (line sep : String) : String :=
  ((pySplitOn line sep).get? 1).getD ""

/-- Header extraction if/elif chain of `parse_journal_with_models`. -/
def headerUpdate (h : HeaderInfo) (line : String) : HeaderInfo :=
  if containsSub line "Build:" then { h with build := some (pyStrip (splitIndex1 line "Build:")) }
  else if containsSub line "Branch:" then
    { h with branch := some (pyStrip (splitIndex1 line "Branch:")) }
  else if containsSub line "Release:" then
    { h with release := some (pyStrip (splitIndex1 line "Release:")) }
  else if containsSub line "Username" then
    { h with username := some ((extractHeaderUsername line).getD "Unknown") }
  else h

/-- Dict assignment `model_handles[h] = current_model` (overwrite or append). -/
def insertHandle (hs : List (String × String)) (k v : String) : List (String × String) :=
  if hs.any (fun p => p.1 = k) then hs.map (fun p => if p.1 = k then (k, v) else p)
  else hs ++ [(k, v)]

/-- Content-override chain of the model-attributed parser: identical to the
flat parser's chain except that no line rewriting happens and a trailing
`ModelPath Created` elif forces category `Model`. -/
def modelContentOverride (cat : String) (line : String) : String :=
  if containsSub line "BIG_GAP" || containsSub line "!!!BIG_GAP" then "BIG GAP"
  else if containsSub line "Unrecoverable error" then "Error"
  else if containsSub (toLowerPy line) "exception" then "Error"
  else if containsSub line "API_ERROR" then "Error"
  else if containsSub line "Error posted" then "Error"
  else if containsSub line "RAM Statistics" || containsSub line "VM Statistics" then "Performance"
  else if containsSub line "Delta VM" || containsSub line "Delta RAM" then "Performance"
  else if containsSub line "ModelPath Created" then "Model"
  else cat

/-- One iteration of the model-attributed parser's line loop. -/
def modelStep (st : MState) (rawLine : String) : MState × MEntry :=
  let line := pyStrip rawLine
  let header1 := headerUpdate st.header line
  let mc :=
    if containsSub line "ModelPath Created" then
      match extractRvtPath line with
      | some p => (st.models ++ [unquote p], unquote p)
      | none => (st.models, st.current_model)
    else (st.models, st.current_model)
  let models1 := mc.1
  let cur1 := mc.2
  let handles1 :=
    match extractHandle line with
    | some hd => insertHandle st.handles hd cur1
    | none => st.handles
  ({ models := models1, handles := handles1, header := header1, current_model := cur1 },
   { timestamp := extractTimestamp line,
     category := modelContentOverride (primaryCategory line) line,
     content := line, model := cur1 })

/-- The model-attributed parser's line loop, producing the entry list. -/
def modelLinesGo (st : MState) : List String → List MEntry
  | [] => []
  | l :: ls => (modelStep st l).2 :: modelLinesGo (modelStep st l).1 ls

/-- Final loop state of the model-attributed parser. -/
def modelFinalState : MState → List String → MState
  | st, [] => st
  | st, l :: ls => modelFinalState (modelStep st l).1 ls

/-- Per-encoding body of `parse_journal_with_models` on decoded lines. -/
def parseModelsLines (lines : List String) : JournalDoc :=
  let fin := modelFinalState {} lines
  { header := fin.header,
    models := "All models" :: fin.models,
    lines := modelLinesGo {} lines }

/-- `JournalParser.parse_journal_with_models`: same encoding loop as the
flat parser, but total failure raises `RuntimeError("Failed to parse
journal file")` instead of returning an empty result. -/
def parse_journal_with_models (readFile : String → Option (List String)) :
    Except String JournalDoc :=
  match tryEncodings readFile journalEncodings with
  | some ls => Except.ok (parseModelsLines ls)
  | none => Except.error "Failed to parse journal file"

/-! ## Worker-log parsing (`WorkerLogParser.parse_worker_log`) -/

/-- One parsed worker-log line. -/
structure WorkerLogEntry where
  timestamp : String
  level : String
  message : String
deriving DecidableEq

/-- Python `s.split(' ', 2)`: split on single spaces, at most two splits,
the third part keeping any further spaces. -/
def pySplitSpace2 (s : String) : List String :=
  match pySplitOn s " " with
  | p0 :: p1 :: p2 :: rest => [p0, p1, String.intercalate " " (p2 :: rest)]
  | ps => ps

/-- Loop body of `parse_worker_log`: lines splitting into exactly three
parts become entries, all others are dropped. -/
def workerEntryOfLine (l : String) : Option WorkerLogEntry :=
  match pySplitSpace2 (pyStrip l) with
  | [t, lv, m] => some { timestamp := t, level := lv, message := m }
  | _ => none

/-- `WorkerLogParser.parse_worker_log`: `none` models the missing-file /
read-failure result (`return None`), otherwise the entry list. -/
def parse_worker_log (file : Option (List String)) : Option (List WorkerLogEntry) :=
  match file with
  | none => none
  | some lines => some (lines.filterMap workerEntryOfLine)

/-! ## HTML warnings parsing (`HTMLParser.parse`)

The BeautifulSoup layer is represented by its observable output: a table
is a list of rows, each row a list of cells, a cell carrying its
`get_text(strip=True)` text and its `stripped_strings` list. -/

/-- One `<td>` cell after soup extraction. -/
structure HCell where
  text : String
  strings : List String
deriving DecidableEq

/-- One `<tr>` row. -/
structure HRow where
  cells : List HCell
deriving DecidableEq

/-- One warning record. -/
structure Warning where
  index : Nat
  message : String
  elements : List String
  ids : List String
  status : String
  created_date : String
  modified_date : String
deriving DecidableEq

/-- `re.findall(r'id (\d+)', el)`: all non-overlapping captures, scanning
left to right (fuel-driven because a successful match skips past its
digits). -/
def findIdsGo : Nat → List Char → List String
  | 0, _ => []
  | _ + 1, [] => []
  | fuel + 1, 'i' :: 'd' :: ' ' :: rest =>
    let ds := rest.takeWhile Char.isDigit
    if ds.isEmpty then findIdsGo fuel ('d' :: ' ' :: rest)
    else String.mk ds :: findIdsGo fuel (rest.drop ds.length)
  | fuel + 1, _ :: rest => findIdsGo fuel rest

/-- All `id <digits>` captures of a string. -/
def findIds (el : String) : List String :=
  findIdsGo el.toList.length el.toList

/-- Build one warning from the two cells of an accepted row.  The two
`datetime.now().isoformat()` calls are modelled by the `now` parameter. -/
def mkWarning (now : String) (i : Nat) (c0 c1 : HCell) : Warning :=
  let elements := c1.strings.map pyStrip
  { index := i, message := c0.text, elements := elements,
    ids := (elements.map findIds).flatten, status := "Open",
    created_date := now, modified_date := now }

/-- Row loop of `HTMLParser.parse`: `enumerate(rows[1:], 1)` — the counter
advances on every row, accepted or skipped. -/
def parseRows (now : String) : Nat → List HRow → List Warning
  | _, [] => []
  | i, r :: rs =>
    match r.cells with
    | [c0, c1] => mkWarning now i c0 c1 :: parseRows now (i + 1) rs
    | _ => parseRows now (i + 1) rs

/-- `HTMLParser.parse` on a found table: skip the header row, then run the
row loop from counter 1. -/
def htmlParse (now : String) (rows : List HRow) : List Warning :=
  parseRows now 1 (rows.drop 1)

/-! ## Problem finding (`JournalProblemFinder`) -/

/-- One finding. -/
structure Problem where
  timestamp : String
  type : String
  source : String
  description : String
deriving DecidableEq

/-- Constructor configuration (`__init__` defaults). -/
structure PFConfig where
  time_threshold_sec : Nat := 10
  ram_spike_mb : Nat := 500
deriving DecidableEq

/-- A `JournalProblemFinder()` built with the default thresholds. -/
def defaultFinder : PFConfig := {}

/-- `ERROR` pattern: case-insensitive search of `error|exception|fail|cannot`. -/
def errorHit (line : String) : Bool :=
  containsSub (toLowerPy line) "error" || containsSub (toLowerPy line) "exception"
    || containsSub (toLowerPy line) "fail" || containsSub (toLowerPy line) "cannot"

/-- `PERFORMANCE` pattern: case-insensitive search of `slightly off axis`. -/
def perfHit (line : String) : Bool :=
  containsSub (toLowerPy line) "slightly off axis"

/-- Scan after `RAM:` for `.*?Used \+(\d+) MB` — lazily: the first
`Used +<digits> MB` completion wins, and the dot cannot cross a newline. -/
def ramInner : List Char → Option Nat
  | [] => none
  | c :: cs =>
    match (do
      let s ← expectStr ("Used +".toList) (c :: cs)
      let (ds, s2) ← digits1 s
      let _ ← expectStr (" MB".toList) s2
      pure (natOfDigits ds)) with
    | some n => some n
    | none => if c = '\n' then none else ramInner cs

/-- At-position matcher for `RAM:.*?Used \+(\d+) MB`. -/
def ramAt (s : List Char) : Option Nat := do
  let s ← expectStr ("RAM:".toList) s
  ramInner s

/-- `re.search(r"RAM:.*?Used \+(\d+) MB", line)`, as the captured number. -/
def extractRam (line : String) : Option Nat :=
  firstMatch ramAt line.toList

/-- `TIMESTAMP` anchor pattern
`^'C (\d{2}-\w{3}-\d{4} \d{2}:\d{2}:\d{2}\.\d{3});\s*(.*)`, anchored by
`.match` at the start of the line; the fixed-width group is matched as a
28-character prefix shape. -/
def anchorMatch (line : String) : Option String :=
  match line.toList with
  | x0 :: x1 :: x2 :: a1 :: a2 :: s1 :: b1 :: b2 :: b3 :: s2 :: c1 :: c2 :: c3 :: c4
      :: s3 :: d1 :: d2 :: s4 :: e1 :: e2 :: s5 :: f1 :: f2 :: s6 :: g1 :: g2 :: g3
      :: s7 :: _ =>
    if x0 = '\'' && x1 = 'C' && x2 = ' '
        && a1.isDigit && a2.isDigit && s1 = '-'
        && isWordChar b1 && isWordChar b2 && isWordChar b3 && s2 = '-'
        && c1.isDigit && c2.isDigit && c3.isDigit && c4.isDigit && s3 = ' '
        && d1.isDigit && d2.isDigit && s4 = ':'
        && e1.isDigit && e2.isDigit && s5 = ':'
        && f1.isDigit && f2.isDigit && s6 = '.'
        && g1.isDigit && g2.isDigit && g3.isDigit && s7 = ';' then
      some (String.mk [a1, a2, '-', b1, b2, b3, '-', c1, c2, c3, c4, ' ',
        d1, d2, ':', e1, e2, ':', f1, f2, '.', g1, g2, g3])
    else none
  | _ => none

/-- Python `last_timestamp or "Unknown"`. -/
def pyOrUnknown (o : Option String) : String :=
  match o with
  | some t => if t = "" then "Unknown" else t
  | none => "Unknown"

/-- `line[:k] + ("..." if len(line) > k else "")`. -/
def truncDesc (k : Nat) (line : String) : String :=
  String.mk (line.toList.take k) ++ (if k < line.length then "..." else "")

/-- Per-line body of `find_problems`: update the timestamp anchor first,
then run the four independent pattern checks.  Returns the new carried
timestamp and the problems emitted for this line, in source order. -/
def problemsForLine (cfg : PFConfig) (lastTs : Option String) (line : String) :
    Option String × List Problem :=
  let lastTs2 :=
    match anchorMatch line with
    | some t => some t
    | none => lastTs
  let tsLabel := pyOrUnknown lastTs2
  let p1 : List Problem :=
    if errorHit line then
      [{ timestamp := tsLabel, type := "Error", source := "Journal",
         description := truncDesc 150 line }]
    else []
  let p2 : List Problem :=
    if containsSub line "API_WARNING" then
      [{ timestamp := tsLabel, type := "API Warning", source := "Revit API",
         description := truncDesc 150 line }]
    else []
  let p3 : List Problem :=
    if perfHit line then
      [{ timestamp := tsLabel, type := "Performance", source := "Geometry",
         description := "Possible performance issue: " ++ truncDesc 120 line }]
    else []
  let p4 : List Problem :=
    match extractRam line with
    | some n =>
      if cfg.ram_spike_mb < n then
        [{ timestamp := tsLabel, type := "Resource Spike", source := "Memory Usage",
           description := "RAM spike of " ++ toString n ++ " MB detected" }]
      else []
    | none => []
  (lastTs2, p1 ++ p2 ++ p3 ++ p4)

/-- Python `str.splitlines` restricted to `\n`, `\r\n`, `\r` (the only
line breaks journal text contains). -/
def splitlinesGo (cur : List Char) : List Char → List String
  | [] => if cur.isEmpty then [] else [String.mk cur.reverse]
  | '\r' :: '\n' :: rest => String.mk cur.reverse :: splitlinesGo [] rest
  | '\r' :: rest => String.mk cur.reverse :: splitlinesGo [] rest
  | '\n' :: rest => String.mk cur.reverse :: splitlinesGo [] rest
  | c :: rest => splitlinesGo (c :: cur) rest

/-- `file_content.splitlines()`. -/
def pySplitlines (s : String) : List String :=
  splitlinesGo [] s.toList

/-- Line loop of `find_problems`. -/
def findProblemsGo (cfg : PFConfig) (lastTs : Option String) : List String → List Problem
  | [] => []
  | l :: ls =>
    (problemsForLine cfg lastTs l).2 ++ findProblemsGo cfg (problemsForLine cfg lastTs l).1 ls

/-- `JournalProblemFinder.find_problems`. -/
def find_problems (cfg : PFConfig) (content : String) : List Problem :=
  findProblemsGo cfg none (pySplitlines content)

/-! ## Shared lemmas -/

/-- If every candidate encoding fails to decode, the encoding loop fails. -/
theorem tryEncodings_eq_none (readFile : String → Option (List String)) :
    ∀ es : List String, (∀ e ∈ es, readFile e = none) → tryEncodings readFile es = none := by
  intro es
  induction es with
  | nil => intro _; rfl
  | cons e es ih =>
    intro h
    have he : readFile e = none := h e (List.mem_cons_self e es)
    simp only [tryEncodings, he]
    exact ih fun x hx => h x (List.mem_cons_of_mem e hx)

/-! ## Claim theorems -/

/-- C1: on a file that fails to decode under every candidate encoding,
flat-mode `parse_journal` returns the empty list while
`parse_journal_with_models` raises (`RuntimeError("Failed to parse journal
file")`, embedded as `Except.error`). -/
theorem c1_total_decode_failure_asymmetry
    (readFile : String → Option (List String))
    (h : ∀ e ∈ journalEncodings, readFile e = none) :
    parse_journal readFile = [] ∧
      parse_journal_with_models readFile = Except.error "Failed to parse journal file" := by
  have hn : tryEncodings readFile journalEncodings = none :=
    tryEncodings_eq_none readFile journalEncodings h
  exact ⟨by simp [parse_journal, hn], by simp [parse_journal_with_models, hn]⟩

/-- Witness for C1: the reader that fails under every encoding. -/
theorem c1_total_decode_failure_asymmetry_witness :
    parse_journal (fun _ => none) = [] ∧
      parse_journal_with_models (fun _ => none) =
        Except.error "Failed to parse journal file" :=
  c1_total_decode_failure_asymmetry (fun _ => none) (fun _ _ => rfl)

/-- C5: flat-mode forward-fill — a line without a timestamp token inherits
the most recently seen timestamp, on the spec's three-line example. -/
theorem c5_forward_fill_flat :
    (parseJournalLines ["'C 01-Jan-2024 10:00:00.000; x", "no-timestamp-here",
        "'C 01-Jan-2024 10:00:05.000; y"]).map (fun e => e.timestamp) =
      ["01-Jan-2024 10:00:00.000", "01-Jan-2024 10:00:00.000",
        "01-Jan-2024 10:00:05.000"] := by
  decide

/-- C2 counterexample: a line that starts with `Jrn.Command` and contains
(case-insensitive) `exception` but classifies as `BIG GAP`, not `Error`,
because the `BIG_GAP` content rule precedes the error rules. -/
theorem c2_precedence_counterexample :
    strStarts (pyStrip "Jrn.Command \"X\",\"Y\" exception BIG_GAP") "Jrn.Command" = true ∧
    containsSub (toLowerPy (pyStrip "Jrn.Command \"X\",\"Y\" exception BIG_GAP"))
        "exception" = true ∧
    ((classifyStep initState "Jrn.Command \"X\",\"Y\" exception BIG_GAP").2).category =
      "BIG GAP" := by
  decide

/-- C2 (amended): a line starting with `Jrn.Command` that contains
case-insensitive `exception` classifies as `Error` rather than `Command`,
provided it does not also contain `BIG_GAP` (which takes precedence as
`BIG GAP`) or `ModelPath Created` (whose successful model extraction takes
precedence as `Model`). -/
theorem c2_precedence_amended (st : JState) (raw : String)
    (_hJ : strStarts (pyStrip raw) "Jrn.Command" = true)
    (hE : containsSub (toLowerPy (pyStrip raw)) "exception" = true)
    (hB : (containsSub (pyStrip raw) "BIG_GAP"
        || containsSub (pyStrip raw) "!!!BIG_GAP") = false)
    (hM : containsSub (pyStrip raw) "ModelPath Created" = false) :
    ((classifyStep st raw).2).category = "Error" := by
  have hco : contentOverride (primaryCategory (pyStrip raw)) (pyStrip raw) =
      ("Error", pyStrip raw) := by
    unfold contentOverride
    rw [hB, hE]
    by_cases hU : containsSub (pyStrip raw) "Unrecoverable error" <;> simp [hU]
  have hme : ∀ ts, (modelExtract st "Error" (pyStrip raw) ts).1 = "Error" := by
    intro ts
    unfold modelExtract
    rw [hM]
    simp
  simp only [classifyStep, hco]
  exact hme _

/-- Witness for C2 (amended): the spec's own example line classifies as
`Error`. -/
theorem c2_precedence_amended_witness :
    ((classifyStep initState "Jrn.Command \"X\",\"Y\" exception occurred").2).category =
      "Error" :=
  c2_precedence_amended initState "Jrn.Command \"X\",\"Y\" exception occurred"
    (by decide) (by decide) (by decide) (by decide)

/-- Each model-attributed entry carries only its own line's timestamp token. -/
theorem modelStep_timestamp (st : MState) (raw : String) :
    ((modelStep st raw).2).timestamp = extractTimestamp (pyStrip raw) := by
  simp [modelStep]

/-- Timestamps of the model-attributed entry list, line by line. -/
theorem modelLinesGo_timestamps (st : MState) (ls : List String) :
    (modelLinesGo st ls).map (fun e => e.timestamp) =
      ls.map (fun l => extractTimestamp (pyStrip l)) := by
  induction ls generalizing st with
  | nil => rfl
  | cons l ls ih => simp [modelLinesGo, modelStep_timestamp, ih]

/-- C3 counterexample: in `parse_journal_with_models`, a line without a
timestamp token gets `none` even though an earlier line carried one — no
forward fill happens in this mode. -/
theorem c3_model_mode_timestamp_counterexample :
    ((parseModelsLines ["'C 01-Jan-2024 10:00:00.000; x", "no-timestamp-here"]).lines.map
      (fun e => e.timestamp)) = [some "01-Jan-2024 10:00:00.000", none] := by
  decide

/-- C3 (amended): every entry of `parse_journal_with_models` carries exactly
its own line's timestamp token and is `none` whenever the line has no such
token — timestamps are never carried forward in this mode (forward fill
exists only in flat-mode `parse_journal`). -/
theorem c3_model_mode_timestamp_amended (lines : List String) :
    ((parseModelsLines lines).lines.map (fun e => e.timestamp)) =
      lines.map (fun l => extractTimestamp (pyStrip l)) := by
  simp [parseModelsLines, modelLinesGo_timestamps]

/-- Spec-side index sequence for the amended C4: the 1-based *raw* position
of each accepted (two-cell) row among the data rows, in document order. -/
def acceptedRawIndices : Nat → List HRow → List Nat
  | _, [] => []
  | i, r :: rs =>
    match r.cells with
    | [_, _] => i :: acceptedRawIndices (i + 1) rs
    | _ => acceptedRawIndices (i + 1) rs

/-- The row loop numbers warnings by raw row position. -/
theorem parseRows_map_index (now : String) (rs : List HRow) :
    ∀ i, (parseRows now i rs).map (fun w => w.index) = acceptedRawIndices i rs := by
  induction rs with
  | nil => intro i; rfl
  | cons r rs ih =>
    intro i
    rcases hc : r.cells with _ | ⟨c0, _ | ⟨c1, _ | ⟨c2, tl⟩⟩⟩ <;>
      simp [parseRows, acceptedRawIndices, hc, ih, mkWarning]

/-- C4 counterexample: with a skipped one-cell row in front, the single
accepted row receives index 2, not 1 — skipped rows do create gaps. -/
theorem c4_html_index_counterexample :
    (htmlParse "now" [⟨[]⟩, ⟨[⟨"only", []⟩]⟩,
        ⟨[⟨"Wall join error", []⟩, ⟨"", ["elem A id 123"]⟩]⟩]).map
      (fun w => w.index) = [2] := by
  decide

/-- C4 (amended): warning indices are the 1-based raw positions of the
accepted rows among the data rows (header excluded) — `enumerate(rows[1:],
1)` counts every row, so a skipped row leaves a gap in the index sequence;
concretely, rows (accepted, skipped, accepted) yield indices [1, 3]. -/
theorem c4_html_index_amended :
    (∀ (now : String) (rows : List HRow),
      (htmlParse now rows).map (fun w => w.index) = acceptedRawIndices 1 (rows.drop 1)) ∧
    (htmlParse "now" [⟨[]⟩, ⟨[⟨"a", []⟩, ⟨"b", []⟩]⟩, ⟨[⟨"only", []⟩]⟩,
        ⟨[⟨"c", []⟩, ⟨"d", []⟩]⟩]).map (fun w => w.index) = [1, 3] := by
  constructor
  · intro now rows
    exact parseRows_map_index now (rows.drop 1) 1
  · decide

/-- C6: Resource Spike problems are emitted exactly when the number
captured by `RAM:.*?Used \+(\d+) MB` strictly exceeds the default 500 MB
threshold; `+400` yields nothing, `+600` yields exactly the synthesized
description. -/
theorem c6_resource_spike_threshold :
    find_problems defaultFinder "RAM: Used +400 MB" = [] ∧
    find_problems defaultFinder "RAM: Used +600 MB" =
      [{ timestamp := "Unknown", type := "Resource Spike", source := "Memory Usage",
         description := "RAM spike of 600 MB detected" }] ∧
    ∀ (ts : Option String) (line : String),
      ((problemsForLine defaultFinder ts line).2.countP
          (fun p => p.type == "Resource Spike")) =
        (match extractRam line with
         | some n => if 500 < n then 1 else 0
         | none => 0) := by
  refine ⟨by decide, by decide, ?_⟩
  intro ts line
  rcases hR : extractRam line with _ | n
  · by_cases h1 : errorHit line <;> by_cases h2 : containsSub line "API_WARNING" <;>
      by_cases h3 : perfHit line <;>
      simp +decide [problemsForLine, defaultFinder, h1, h2, h3, hR, List.countP_append]
  · by_cases h4 : 500 < n <;> by_cases h1 : errorHit line <;>
      by_cases h2 : containsSub line "API_WARNING" <;> by_cases h3 : perfHit line <;>
      simp +decide [problemsForLine, defaultFinder, h1, h2, h3, h4, hR, List.countP_append]

/-- A worker-log line yields an entry exactly when its bounded space-split
has three parts. -/
theorem workerEntry_isSome (l : String) :
    (workerEntryOfLine l).isSome = ((pySplitSpace2 (pyStrip l)).length == 3) := by
  unfold workerEntryOfLine
  rcases h : pySplitSpace2 (pyStrip l) with _ | ⟨a, _ | ⟨b, _ | ⟨c, _ | ⟨d, tl⟩⟩⟩⟩ <;>
    simp

/-- C7: worker-log parsing emits, in line order, one entry per line whose
bounded split has exactly three fields (so the message keeps its spaces),
silently drops shorter lines, and never fails on a readable file; the
two-line example yields exactly the first line's entry. -/
theorem c7_worker_log_three_fields :
    parse_worker_log (some ["2024-01-01 INFO hello world", "malformed line"]) =
      some [{ timestamp := "2024-01-01", level := "INFO", message := "hello world" }] ∧
    (∀ lines : List String,
      ((parse_worker_log (some lines)).getD []).length =
        lines.countP (fun l => (pySplitSpace2 (pyStrip l)).length == 3)) ∧
    (∀ lines : List String, (parse_worker_log (some lines)).isSome = true) := by
  refine ⟨by decide, ?_, fun lines => rfl⟩
  intro lines
  induction lines with
  | nil => rfl
  | cons l ls ih =>
    simp only [parse_worker_log, Option.getD_some, List.filterMap_cons, List.countP_cons] at *
    cases h : workerEntryOfLine l with
    | none =>
      have hs := workerEntry_isSome l
      rw [h] at hs
      simp only [Option.isSome_none] at hs
      simp [ih, ← hs]
    | some e =>
      have hs := workerEntry_isSome l
      rw [h] at hs
      simp only [Option.isSome_some] at hs
      simp [ih, ← hs]

/-- C8 counterexample: the back-fill is not "first username only, applied to
all models": a second `User's Name` line fills the model recorded between
the two username lines with the *second* username, and a model recorded
after the last username line never receives one. -/
theorem c8_username_backfill_counterexample :
    (journalModels ["ModelPath Created: Path = \"A.rvt\"", "User's Name alice,",
        "ModelPath Created: Path = \"B.rvt\"", "User's Name bob,",
        "ModelPath Created: Path = \"C.rvt\""]).map (fun m => m.username) =
      [some "alice", some "bob", none] := by
  decide

/-- C8 (amended): each `User's Name X,` line back-fills its username onto
every ModelInfo recorded *so far* that is missing one (so immediately after
such a line no recorded model lacks a username), but models recorded later
receive a username only from a subsequent username line — with a single
username line, models recorded after it keep no username, as the
before/after example shows. -/
theorem c8_username_backfill_amended :
    (∀ (ms : List ModelInfo) (line u : String),
      containsSub line "User's Name " = true → extractUsername line = some u →
      (usernameBackfill ms line).all (fun m => m.username.isSome) = true) ∧
    (journalModels ["ModelPath Created: Path = \"A.rvt\"", "User's Name alice,",
        "ModelPath Created: Path = \"B.rvt\""]).map (fun m => m.username) =
      [some "alice", none] := by
  constructor
  · intro ms line u h1 h2
    unfold usernameBackfill
    rw [h1, h2]
    simp only [if_true, List.all_eq_true, List.mem_map]
    rintro b ⟨m, _, rfl⟩
    by_cases hu : m.username = none <;> simp [hu]
    exact Option.isSome_iff_ne_none.mpr hu
  · decide

/-- Witness for C8 (amended): one model without a username, back-filled by
a concrete `User's Name` line. -/
theorem c8_username_backfill_amended_witness :
    (usernameBackfill [{ timestamp := "" }] "User's Name alice,").all
      (fun m => m.username.isSome) = true :=
  c8_username_backfill_amended.1 [{ timestamp := "" }] "User's Name alice," "alice"
    (by decide) (by decide)

/-- Entry-level half of C9: a non-empty command field forces category
`Command` (the entry builder blanks the field otherwise). -/
theorem step_command (st : JState) (raw : String) :
    ((classifyStep st raw).2).command ≠ "" → ((classifyStep st raw).2).category = "Command" := by
  simp only [classifyStep]
  intro h
  split at h
  next hc => exact hc
  next => exact absurd rfl h

/-- Every entry of a flat parse satisfies the command/category implication. -/
theorem parseLinesGo_command (ls : List String) :
    ∀ (st : JState), ∀ e ∈ parseLinesGo st ls, e.command ≠ "" → e.category = "Command" := by
  induction ls with
  | nil => intro st e he; cases he
  | cons l ls ih =>
    intro st e he
    rcases List.mem_cons.mp he with h | h
    · subst h; exact step_command st l
    · exact ih _ e h

/-- C9: in flat-mode parsing the `command` field is non-empty only on
`Command`-category entries, and producing a `Command`-category entry
clears the pending command label in the carried state. -/
theorem c9_command_field_invariant :
    (∀ (lines : List String), ∀ e ∈ parseJournalLines lines,
      e.command ≠ "" → e.category = "Command") ∧
    (∀ (st : JState) (raw : String), ((classifyStep st raw).2).category = "Command" →
      ((classifyStep st raw).1).current_command = "") := by
  constructor
  · intro lines e he
    exact parseLinesGo_command lines initState e he
  · intro st raw h
    simp only [classifyStep] at h ⊢
    rw [if_pos h]

/-- Witness for C9: a concrete `Jrn.Command` line whose entry carries the
command label and whose successor state is cleared. -/
theorem c9_command_field_invariant_witness :
    ((classifyStep initState "Jrn.Command \"A\",\"B\"").2).category = "Command" ∧
    ((classifyStep initState "Jrn.Command \"A\",\"B\"").1).current_command = "" := by
  have h1 : ((classifyStep initState "Jrn.Command \"A\",\"B\"").2).category = "Command" :=
    c9_command_field_invariant.1 ["Jrn.Command \"A\",\"B\""]
      ((classifyStep initState "Jrn.Command \"A\",\"B\"").2) (by decide) (by decide)
  exact ⟨h1, c9_command_field_invariant.2 initState "Jrn.Command \"A\",\"B\"" h1⟩

/-- A successful anchor capture is never the empty string (it is a
24-character group). -/
theorem anchorMatch_ne_empty (line t : String) (h : anchorMatch line = some t) :
    t ≠ "" := by
  unfold anchorMatch at h
  split at h
  · split at h
    · injection h with h2
      subst h2
      intro hemp
      have hd := congrArg String.data hemp
      simp at hd
    · exact Option.noConfusion h
  · exact Option.noConfusion h

/-- C10: the timestamp-anchor check runs before the problem checks within a
line, so a line that is itself an anchor labels every problem it emits with
its own timestamp (not the previous anchor's, not `"Unknown"`). -/
theorem c10_anchor_before_problems (cfg : PFConfig) (ts : Option String) (line t : String)
    (h : anchorMatch line = some t) :
    (problemsForLine cfg ts line).1 = some t ∧
      ∀ p ∈ (problemsForLine cfg ts line).2, p.timestamp = t := by
  have hne : t ≠ "" := anchorMatch_ne_empty line t h
  have hts : pyOrUnknown (some t) = t := by simp [pyOrUnknown, hne]
  constructor
  · simp [problemsForLine, h]
  · intro p hp
    simp only [problemsForLine, h, hts] at hp
    simp only [List.mem_append] at hp
    rcases hp with ((hp1 | hp2) | hp3) | hp4
    · split at hp1
      · simp at hp1; subst hp1; rfl
      · simp at hp1
    · split at hp2
      · simp at hp2; subst hp2; rfl
      · simp at hp2
    · split at hp3
      · simp at hp3; subst hp3; rfl
      · simp at hp3
    · split at hp4
      · split at hp4
        · simp at hp4; subst hp4; rfl
        · simp at hp4
      · simp at hp4

/-- Witness for C10: an anchor line that also matches the error pattern is
labeled with its own timestamp. -/
theorem c10_anchor_before_problems_witness :
    (problemsForLine defaultFinder none "'C 01-Jan-2024 10:00:00.000; error happened").1 =
      some "01-Jan-2024 10:00:00.000" :=
  (c10_anchor_before_problems defaultFinder none
    "'C 01-Jan-2024 10:00:00.000; error happened" "01-Jan-2024 10:00:00.000" (by decide)).1
